import Mathlib

/-!
Shallow embedding of the dining-philosophers resource-arbitration monitor
from `src/main.py`.

The shared mutable state of `class Monitor` becomes a record; every
lock-protected critical section of the Python code becomes a pure function
from monitor states to monitor states.  Wall-clock timestamps inside log
messages are presentation detail and are dropped: log messages become
structured entries recording which actor the message is about.
`condition.notify_all()` leaves no trace in the shared data, so it is made
observable through an instrumentation counter `notify_count` incremented at
exactly the two call sites present in the source: the grant branch of
`Monitor.test` (line 71) and `Monitor.stop` (line 105).
-/

/-- `NUM_PHILOSOPHERS = 5` (src/main.py line 14). -/
abbrev NUM_PHILOSOPHERS : Nat := 5

/-- `TIMEOUT = 5` (src/main.py line 15), measured in abstract time units. -/
abbrev TIMEOUT : Nat := 5

/-- Philosopher states `THINKING`/`HUNGRY`/`EATING`/`DEADLOCK`
(src/main.py lines 25-28). -/
inductive PhilState where
  | THINKING
  | HUNGRY
  | EATING
  | DEADLOCK
deriving DecidableEq

open PhilState

/-- Structured counterparts of the log messages written by the monitor:
`"P{i} thinking"`, `"P{i} hungry"`, `"P{i} eating (F.., F..)"`,
`"P{i} timed out!"`, `"P{i} stopped eating"`.  The wall-clock timestamp
prefix added by `log_event` (line 60) is dropped. -/
inductive LogEntry where
  | thinking (i : Fin NUM_PHILOSOPHERS)
  | hungry (i : Fin NUM_PHILOSOPHERS)
  | eating (i : Fin NUM_PHILOSOPHERS)
  | timedOut (i : Fin NUM_PHILOSOPHERS)
  | stoppedEating (i : Fin NUM_PHILOSOPHERS)
deriving DecidableEq

/-- The shared state owned by `class Monitor` (src/main.py lines 49-56):
`state`, `forks_in_use`, the bounded `log` deque, and the `running` flag.
`notify_count` counts `condition.notify_all()` calls (instrumentation). -/
structure Monitor where
  state : Fin NUM_PHILOSOPHERS → PhilState
  forks_in_use : Fin NUM_PHILOSOPHERS → Option (Fin NUM_PHILOSOPHERS)
  log : List LogEntry
  running : Bool
  notify_count : Nat

/-- Append to a `deque(maxlen=20)`: keep the 20 most recent entries,
newest last. -/
def pushLog (l : List LogEntry) (e : LogEntry) : List LogEntry :=
  ((e :: l.reverse).take 20).reverse

/-- `Monitor.log_event` (lines 58-60), timestamp dropped. -/
def log_event (s : Monitor) (e : LogEntry) : Monitor :=
  { s with log := pushLog s.log e }

/-- `Monitor.__init__` (lines 50-56): all actors `THINKING`, all forks
free (`None`), empty log, `running = True`. -/
def initMonitor : Monitor where
  state := fun _ => THINKING
  forks_in_use := fun _ => none
  log := []
  running := true
  notify_count := 0

/-- The grant condition checked by `Monitor.test` (lines 65-67): actor `i`
is `HUNGRY` and both its forks are free.  In `Fin 5`, the left fork index
`(i + NUM_PHILOSOPHERS - 1) % NUM_PHILOSOPHERS` is `i + 4` and the right
fork index is `i`. -/
def grant_ok (s : Monitor) (i : Fin NUM_PHILOSOPHERS) : Prop :=
  s.state i = HUNGRY ∧ s.forks_in_use (i + 4) = none ∧ s.forks_in_use i = none

instance (s : Monitor) (i : Fin NUM_PHILOSOPHERS) : Decidable (grant_ok s i) := by
  unfold grant_ok; infer_instance

/-- `Monitor.test` (lines 62-72): if the grant condition holds, set actor
`i` to `EATING`, mark both forks held by `i`, notify all waiters, and log
the eating message; otherwise do nothing. -/
def test (s : Monitor) (i : Fin NUM_PHILOSOPHERS) : Monitor :=
  if grant_ok s i then
    log_event
      { s with
        state := Function.update s.state i EATING
        forks_in_use :=
          Function.update (Function.update s.forks_in_use (i + 4) (some i)) i (some i)
        notify_count := s.notify_count + 1 }
      (LogEntry.eating i)
  else s

/-- The entry section of `Monitor.pickup_forks` (lines 75-80): if not
running, do nothing; otherwise set actor `i` to `HUNGRY`, log the hungry
message and run `test(i)`. -/
def pickup_entry (s : Monitor) (i : Fin NUM_PHILOSOPHERS) : Monitor :=
  if s.running = false then s
  else
    test (log_event { s with state := Function.update s.state i HUNGRY }
      (LogEntry.hungry i)) i

/-- The timeout branch of `Monitor.pickup_forks` (lines 84-87): set actor
`i` to `DEADLOCK` and log the timed-out message. -/
def timeout_update (s : Monitor) (i : Fin NUM_PHILOSOPHERS) : Monitor :=
  log_event { s with state := Function.update s.state i DEADLOCK }
    (LogEntry.timedOut i)

/-- The intermediate state built by `Monitor.putdown_forks` (lines 93-98)
before the neighbour tests: actor `i` set to `THINKING`, both of its forks
freed, the stopped-eating message logged. -/
def release_update (s : Monitor) (i : Fin NUM_PHILOSOPHERS) : Monitor :=
  log_event
    { s with
      state := Function.update s.state i THINKING
      forks_in_use :=
        Function.update (Function.update s.forks_in_use (i + 4) none) i none }
    (LogEntry.stoppedEating i)

/-- `Monitor.putdown_forks` (lines 91-100): free both forks and set actor
`i` thinking, then `test` the left neighbour `(i - 1) % 5 = i + 4` and the
right neighbour `(i + 1) % 5`. -/
def putdown_forks (s : Monitor) (i : Fin NUM_PHILOSOPHERS) : Monitor :=
  test (test (release_update s i) (i + 4)) (i + 1)

/-- `Monitor.stop` (lines 102-105): clear `running` and notify all. -/
def stop (s : Monitor) : Monitor :=
  { s with running := false, notify_count := s.notify_count + 1 }

/-- The restart branch of `main` (src/main.py lines 196-199): set
`running = True` and clear every `DEADLOCK` actor back to `THINKING`
(spawning of fresh actor threads is control flow, not monitor state). -/
def restart_command (s : Monitor) : Monitor :=
  { s with
    running := true
    state := fun i => if s.state i = DEADLOCK then THINKING else s.state i }

/-- The atomic lock-protected sections of the monitor, as observable from
the shared state.  `reqEntry i` is the entry section of `pickup_forks(i)`;
`timeout i` is its timeout branch firing at a wakeup; `release i` is
`putdown_forks(i)`; `stop` is `Monitor.stop`; `restart` is the restart
branch of `main`; `wake` is a wakeup that changes nothing (a notification
arriving at a waiter whose predicate is still false). -/
inductive Act where
  | reqEntry (i : Fin NUM_PHILOSOPHERS)
  | timeout (i : Fin NUM_PHILOSOPHERS)
  | release (i : Fin NUM_PHILOSOPHERS)
  | stop
  | restart
  | wake
deriving DecidableEq

/-- State effect of each atomic section. -/
def applyAct : Act → Monitor → Monitor
  | Act.reqEntry i, s => pickup_entry s i
  | Act.timeout i, s => timeout_update s i
  | Act.release i, s => putdown_forks s i
  | Act.stop, s => stop s
  | Act.restart, s => restart_command s
  | Act.wake, s => s

/-- The wait loop of `Monitor.pickup_forks` (lines 82-89), from the point
of view of the calling thread.  `elapsed` is the absolute time since the
request began (`time.time() - start_time`); the schedule lists the wakeups
the thread experiences, each with the absolute time of the wakeup and the
atomic section some other thread ran while this thread was waiting.  With
an empty remaining schedule, or a next wakeup at or after the deadline,
the timed `condition.wait(remaining)` expires at time `TIMEOUT` with the
state unchanged, and the re-check takes the timeout branch. -/
def waitLoop (i : Fin NUM_PHILOSOPHERS) :
    List (Nat × Act) → Monitor → Nat → Monitor × Bool
  | sched, s, elapsed =>
    if s.state i = EATING ∨ s.running = false then
      (s, s.running && decide (s.state i = EATING))
    else if TIMEOUT ≤ elapsed then
      (timeout_update s i, false)
    else
      match sched with
      | [] => (timeout_update s i, false)
      | (t, a) :: rest =>
        if TIMEOUT ≤ t then (timeout_update s i, false)
        else waitLoop i rest (applyAct a s) (max (elapsed + 1) t)

/-- `Monitor.pickup_forks` (lines 74-89): fail fast when not running,
otherwise run the entry section and then the wait loop. -/
def pickup_forks (s : Monitor) (i : Fin NUM_PHILOSOPHERS)
    (sched : List (Nat × Act)) : Monitor × Bool :=
  if s.running = false then (s, false)
  else waitLoop i sched (pickup_entry s i) 0

/-- One iteration of the `philosopher` loop body (src/main.py lines
107-115), entered with the `while monitor.running` guard already true:
log thinking, re-check `running` after the think sleep (`break` on
false), call `pickup_forks`, and on success call `putdown_forks`.  The
returned boolean says whether the loop proceeds to another iteration,
i.e. whether the `while monitor.running` guard holds afterwards. -/
def philosopher_iter (s : Monitor) (i : Fin NUM_PHILOSOPHERS)
    (sched : List (Nat × Act)) : Monitor × Bool :=
  let s1 := log_event s (LogEntry.thinking i)
  if s1.running = false then (s1, false)
  else
    let r := pickup_forks s1 i sched
    if r.2 then (putdown_forks r.1 i, (putdown_forks r.1 i).running)
    else (r.1, r.1.running)

/-- Precondition under which each atomic section can fire, matching the
scenario of the reachability claims: `release i` only while actor `i` is
`EATING`; `timeout i` only while the wait-loop condition of the pending
`pickup_forks(i)` call holds (actor `i` not `EATING` and still running);
requests, stop, restart and wakeups at any time. -/
def Pre : Act → Monitor → Prop
  | Act.reqEntry _, _ => True
  | Act.timeout i, s => s.state i ≠ EATING ∧ s.running = true
  | Act.release i, s => s.state i = EATING
  | Act.stop, _ => True
  | Act.restart, _ => True
  | Act.wake, _ => True

/-- One atomic monitor step. -/
def Step (s s' : Monitor) : Prop :=
  ∃ a, Pre a s ∧ s' = applyAct a s

/-- States reachable from the initial monitor state by monitor steps. -/
def Reachable (s : Monitor) : Prop :=
  Relation.ReflTransGen Step initMonitor s

/-- Disciplined precondition: like `Pre`, but a request for actor `i` is
only issued while actor `i` is not `EATING` (as the actor loop guarantees:
an actor only requests after having released). -/
def PreD : Act → Monitor → Prop
  | Act.reqEntry i, s => s.state i ≠ EATING
  | a, s => Pre a s

/-- One atomic monitor step under the disciplined precondition. -/
def StepD (s s' : Monitor) : Prop :=
  ∃ a, PreD a s ∧ s' = applyAct a s

/-- States reachable from the initial state by disciplined steps. -/
def ReachableD (s : Monitor) : Prop :=
  Relation.ReflTransGen StepD initMonitor s

/-! ## Arithmetic facts about the ring of five actors and forks -/

lemma fin5_add4_ne : ∀ x : Fin NUM_PHILOSOPHERS, x + 4 ≠ x := by decide

lemma fin5_add4_inj : ∀ x y : Fin NUM_PHILOSOPHERS, x + 4 = y + 4 → x = y := by decide

lemma fin5_add1_ne : ∀ x : Fin NUM_PHILOSOPHERS, x + 1 ≠ x := by decide

lemma fin5_add1_add4 : ∀ x : Fin NUM_PHILOSOPHERS, x + 1 + 4 = x := by decide

/-! ## Field equations for the monitor operations -/

lemma log_event_state (s : Monitor) (e : LogEntry) :
    (log_event s e).state = s.state := rfl

lemma log_event_forks (s : Monitor) (e : LogEntry) :
    (log_event s e).forks_in_use = s.forks_in_use := rfl

lemma log_event_running (s : Monitor) (e : LogEntry) :
    (log_event s e).running = s.running := rfl

lemma test_pos_state (s : Monitor) (i : Fin NUM_PHILOSOPHERS) (h : grant_ok s i) :
    (test s i).state = Function.update s.state i EATING := by
  unfold test; rw [if_pos h]; rfl

lemma test_pos_forks (s : Monitor) (i : Fin NUM_PHILOSOPHERS) (h : grant_ok s i) :
    (test s i).forks_in_use =
      Function.update (Function.update s.forks_in_use (i + 4) (some i)) i (some i) := by
  unfold test; rw [if_pos h]; rfl

lemma test_neg (s : Monitor) (i : Fin NUM_PHILOSOPHERS) (h : ¬ grant_ok s i) :
    test s i = s := by
  unfold test; rw [if_neg h]

lemma test_running (s : Monitor) (i : Fin NUM_PHILOSOPHERS) :
    (test s i).running = s.running := by
  unfold test; split <;> rfl

lemma test_notify (s : Monitor) (i : Fin NUM_PHILOSOPHERS) :
    (test s i).notify_count = s.notify_count + (if grant_ok s i then 1 else 0) := by
  unfold test; split
  · rfl
  · simp

lemma test_state_ne (s : Monitor) (i k : Fin NUM_PHILOSOPHERS) (h : k ≠ i) :
    (test s i).state k = s.state k := by
  by_cases hg : grant_ok s i
  · rw [test_pos_state s i hg, Function.update_noteq h]
  · rw [test_neg s i hg]

lemma test_forks_ne (s : Monitor) (i f : Fin NUM_PHILOSOPHERS)
    (h1 : f ≠ i + 4) (h2 : f ≠ i) :
    (test s i).forks_in_use f = s.forks_in_use f := by
  by_cases hg : grant_ok s i
  · rw [test_pos_forks s i hg, Function.update_noteq h2, Function.update_noteq h1]
  · rw [test_neg s i hg]

lemma test_grant (s : Monitor) (i : Fin NUM_PHILOSOPHERS) (h : grant_ok s i) :
    (test s i).state i = EATING ∧
    (test s i).forks_in_use (i + 4) = some i ∧
    (test s i).forks_in_use i = some i := by
  refine ⟨?_, ?_, ?_⟩
  · rw [test_pos_state s i h, Function.update_same]
  · rw [test_pos_forks s i h, Function.update_noteq (fin5_add4_ne i), Function.update_same]
  · rw [test_pos_forks s i h, Function.update_same]

/-! ## The per-actor fork-ownership invariants -/

/-- Every `EATING` actor holds both of its forks. -/
def Linv (s : Monitor) : Prop :=
  ∀ j, s.state j = EATING →
    s.forks_in_use (j + 4) = some j ∧ s.forks_in_use j = some j

/-- Every held fork is one of its holder's two forks, and its holder is
`EATING`. -/
def OwnInv (s : Monitor) : Prop :=
  ∀ f j, s.forks_in_use f = some j → (f = j + 4 ∨ f = j) ∧ s.state j = EATING

lemma Linv_log (s : Monitor) (e : LogEntry) (h : Linv s) : Linv (log_event s e) := h

lemma OwnInv_log (s : Monitor) (e : LogEntry) (h : OwnInv s) :
    OwnInv (log_event s e) := h

lemma Linv_update_state (s : Monitor) (i : Fin NUM_PHILOSOPHERS) (c : PhilState)
    (hc : c ≠ EATING) (h : Linv s) :
    Linv { s with state := Function.update s.state i c } := by
  intro j hj
  have hj' : Function.update s.state i c j = EATING := hj
  show s.forks_in_use (j + 4) = some j ∧ s.forks_in_use j = some j
  by_cases hji : j = i
  · subst hji; rw [Function.update_same] at hj'; exact absurd hj' hc
  · rw [Function.update_noteq hji] at hj'; exact h j hj'

lemma OwnInv_update_state (s : Monitor) (i : Fin NUM_PHILOSOPHERS) (c : PhilState)
    (hnone : ∀ f, s.forks_in_use f ≠ some i) (h : OwnInv s) :
    OwnInv { s with state := Function.update s.state i c } := by
  intro f j hf
  have hf' : s.forks_in_use f = some j := hf
  obtain ⟨hd, he⟩ := h f j hf'
  refine ⟨hd, ?_⟩
  show Function.update s.state i c j = EATING
  have hji : j ≠ i := by intro hji; subst hji; exact hnone f hf'
  rw [Function.update_noteq hji]; exact he

lemma Linv_test (s : Monitor) (i : Fin NUM_PHILOSOPHERS) (h : Linv s) :
    Linv (test s i) := by
  by_cases hg : grant_ok s i
  · intro j hj
    rw [test_pos_state s i hg] at hj
    rw [test_pos_forks s i hg]
    obtain ⟨hH, hL, hR⟩ := hg
    by_cases hji : j = i
    · subst hji
      exact ⟨by rw [Function.update_noteq (fin5_add4_ne j), Function.update_same],
             by rw [Function.update_same]⟩
    · rw [Function.update_noteq hji] at hj
      obtain ⟨h1, h2⟩ := h j hj
      have hj4i : j + 4 ≠ i := by
        intro he; rw [he, hR] at h1; exact Option.noConfusion h1
      have hj4i4 : j + 4 ≠ i + 4 := fun he => hji (fin5_add4_inj j i he)
      have hji4 : j ≠ i + 4 := by
        intro he; rw [he, hL] at h2; exact Option.noConfusion h2
      exact ⟨by rw [Function.update_noteq hj4i, Function.update_noteq hj4i4]; exact h1,
             by rw [Function.update_noteq hji, Function.update_noteq hji4]; exact h2⟩
  · rw [test_neg s i hg]; exact h

lemma OwnInv_test (s : Monitor) (i : Fin NUM_PHILOSOPHERS) (h : OwnInv s) :
    OwnInv (test s i) := by
  by_cases hg : grant_ok s i
  · intro f j hf
    rw [test_pos_forks s i hg] at hf
    rw [test_pos_state s i hg]
    obtain ⟨hH, hL, hR⟩ := hg
    by_cases hfi : f = i
    · subst hfi
      rw [Function.update_same] at hf
      obtain rfl : f = j := Option.some.inj hf
      exact ⟨Or.inr rfl, by rw [Function.update_same]⟩
    · rw [Function.update_noteq hfi] at hf
      by_cases hfi4 : f = i + 4
      · subst hfi4
        rw [Function.update_same] at hf
        obtain rfl : i = j := Option.some.inj hf
        exact ⟨Or.inl rfl, by rw [Function.update_same]⟩
      · rw [Function.update_noteq hfi4] at hf
        obtain ⟨hd, he⟩ := h f j hf
        have hji : j ≠ i := by
          intro hji; subst hji; rw [hH] at he; exact PhilState.noConfusion he
        exact ⟨hd, by rw [Function.update_noteq hji]; exact he⟩
  · rw [test_neg s i hg]; exact h

lemma Linv_release_update (s : Monitor) (i : Fin NUM_PHILOSOPHERS)
    (hi : s.state i = EATING) (h : Linv s) : Linv (release_update s i) := by
  intro j hj
  have hj' : Function.update s.state i THINKING j = EATING := hj
  by_cases hji : j = i
  · subst hji; rw [Function.update_same] at hj'; exact PhilState.noConfusion hj'
  · rw [Function.update_noteq hji] at hj'
    obtain ⟨h1, h2⟩ := h j hj'
    obtain ⟨hi1, hi2⟩ := h i hi
    show Function.update (Function.update s.forks_in_use (i + 4) none) i none (j + 4)
          = some j ∧
        Function.update (Function.update s.forks_in_use (i + 4) none) i none j
          = some j
    have hj4i : j + 4 ≠ i := by
      intro he; rw [he, hi2] at h1; exact hji (Option.some.inj h1).symm
    have hj4i4 : j + 4 ≠ i + 4 := fun he => hji (fin5_add4_inj j i he)
    have hji4 : j ≠ i + 4 := by
      intro he; rw [he, hi1] at h2; exact fin5_add4_ne i (Option.some.inj h2).symm
    exact ⟨by rw [Function.update_noteq hj4i, Function.update_noteq hj4i4]; exact h1,
           by rw [Function.update_noteq hji, Function.update_noteq hji4]; exact h2⟩

lemma OwnInv_release_update (s : Monitor) (i : Fin NUM_PHILOSOPHERS)
    (h : OwnInv s) : OwnInv (release_update s i) := by
  intro f j hf
  have hf' : Function.update (Function.update s.forks_in_use (i + 4) none) i none f
      = some j := hf
  by_cases hfi : f = i
  · subst hfi; rw [Function.update_same] at hf'; exact Option.noConfusion hf'
  · rw [Function.update_noteq hfi] at hf'
    by_cases hfi4 : f = i + 4
    · subst hfi4; rw [Function.update_same] at hf'; exact Option.noConfusion hf'
    · rw [Function.update_noteq hfi4] at hf'
      obtain ⟨hd, he⟩ := h f j hf'
      have hji : j ≠ i := by
        intro hji; subst hji
        rcases hd with hd | hd
        · exact hfi4 hd
        · exact hfi hd
      refine ⟨hd, ?_⟩
      show Function.update s.state i THINKING j = EATING
      rw [Function.update_noteq hji]; exact he

lemma Linv_timeout (s : Monitor) (i : Fin NUM_PHILOSOPHERS) (h : Linv s) :
    Linv (timeout_update s i) :=
  Linv_log _ _ (Linv_update_state s i DEADLOCK (by decide) h)

lemma OwnInv_timeout (s : Monitor) (i : Fin NUM_PHILOSOPHERS)
    (hi : s.state i ≠ EATING) (h : OwnInv s) : OwnInv (timeout_update s i) :=
  OwnInv_log _ _ (OwnInv_update_state s i DEADLOCK
    (fun f hf => hi (h f i hf).2) h)

lemma Linv_pickup_entry (s : Monitor) (i : Fin NUM_PHILOSOPHERS) (h : Linv s) :
    Linv (pickup_entry s i) := by
  unfold pickup_entry
  split
  · exact h
  · exact Linv_test _ i (Linv_log _ _ (Linv_update_state s i HUNGRY (by decide) h))

lemma OwnInv_pickup_entry (s : Monitor) (i : Fin NUM_PHILOSOPHERS)
    (hi : s.state i ≠ EATING) (h : OwnInv s) : OwnInv (pickup_entry s i) := by
  unfold pickup_entry
  split
  · exact h
  · exact OwnInv_test _ i (OwnInv_log _ _ (OwnInv_update_state s i HUNGRY
      (fun f hf => hi (h f i hf).2) h))

lemma Linv_putdown (s : Monitor) (i : Fin NUM_PHILOSOPHERS)
    (hi : s.state i = EATING) (h : Linv s) : Linv (putdown_forks s i) :=
  Linv_test _ _ (Linv_test _ _ (Linv_release_update s i hi h))

lemma OwnInv_putdown (s : Monitor) (i : Fin NUM_PHILOSOPHERS) (h : OwnInv s) :
    OwnInv (putdown_forks s i) :=
  OwnInv_test _ _ (OwnInv_test _ _ (OwnInv_release_update s i h))

lemma Linv_stop (s : Monitor) (h : Linv s) : Linv (stop s) := h

lemma OwnInv_stop (s : Monitor) (h : OwnInv s) : OwnInv (stop s) := h

lemma Linv_restart (s : Monitor) (h : Linv s) : Linv (restart_command s) := by
  intro j hj
  have hj' : (if s.state j = DEADLOCK then THINKING else s.state j) = EATING := hj
  show s.forks_in_use (j + 4) = some j ∧ s.forks_in_use j = some j
  by_cases hd : s.state j = DEADLOCK
  · rw [if_pos hd] at hj'; exact PhilState.noConfusion hj'
  · rw [if_neg hd] at hj'; exact h j hj'

lemma OwnInv_restart (s : Monitor) (h : OwnInv s) : OwnInv (restart_command s) := by
  intro f j hf
  have hf' : s.forks_in_use f = some j := hf
  obtain ⟨hd, he⟩ := h f j hf'
  refine ⟨hd, ?_⟩
  show (if s.state j = DEADLOCK then THINKING else s.state j) = EATING
  rw [he]; decide

lemma Step_preserves_Linv {s s' : Monitor} (h : Step s s') (hL : Linv s) :
    Linv s' := by
  obtain ⟨a, hpre, rfl⟩ := h
  cases a with
  | reqEntry i => exact Linv_pickup_entry s i hL
  | timeout i => exact Linv_timeout s i hL
  | release i => exact Linv_putdown s i hpre hL
  | stop => exact Linv_stop s hL
  | restart => exact Linv_restart s hL
  | wake => exact hL

lemma reachable_Linv {s : Monitor} (h : Reachable s) : Linv s := by
  induction h with
  | refl => intro j hj; exact PhilState.noConfusion hj
  | tail h1 h2 ih => exact Step_preserves_Linv h2 ih

lemma StepD_preserves_Inv {s s' : Monitor} (h : StepD s s')
    (hI : OwnInv s ∧ Linv s) : OwnInv s' ∧ Linv s' := by
  obtain ⟨a, hpre, rfl⟩ := h
  obtain ⟨hO, hL⟩ := hI
  cases a with
  | reqEntry i => exact ⟨OwnInv_pickup_entry s i hpre hO, Linv_pickup_entry s i hL⟩
  | timeout i => exact ⟨OwnInv_timeout s i hpre.1 hO, Linv_timeout s i hL⟩
  | release i => exact ⟨OwnInv_putdown s i hO, Linv_putdown s i hpre hL⟩
  | stop => exact ⟨OwnInv_stop s hO, Linv_stop s hL⟩
  | restart => exact ⟨OwnInv_restart s hO, Linv_restart s hL⟩
  | wake => exact ⟨hO, hL⟩

lemma reachableD_Inv {s : Monitor} (h : ReachableD s) : OwnInv s ∧ Linv s := by
  induction h with
  | refl =>
    refine ⟨?_, ?_⟩
    · intro f j hf; exact Option.noConfusion hf
    · intro j hj; exact PhilState.noConfusion hj
  | tail h1 h2 ih => exact StepD_preserves_Inv h2 ih

/-! ## Further ring-arithmetic facts and unfolding lemmas -/

lemma fin5_ne_add1 : ∀ x : Fin NUM_PHILOSOPHERS, x ≠ x + 1 := by decide

lemma fin5_ne_add4 : ∀ x : Fin NUM_PHILOSOPHERS, x ≠ x + 4 := by decide

lemma fin5_ne_add4_add4 : ∀ x : Fin NUM_PHILOSOPHERS, x ≠ x + 4 + 4 := by decide

lemma fin5_add1_ne_add4_add4 : ∀ x : Fin NUM_PHILOSOPHERS, x + 1 ≠ x + 4 + 4 := by
  decide

lemma fin5_add1_ne_add4 : ∀ x : Fin NUM_PHILOSOPHERS, x + 1 ≠ x + 4 := by decide

lemma fin5_add4_add4 : ∀ x : Fin NUM_PHILOSOPHERS, x + 4 + 4 = x + 3 := by decide

lemma fin5_add4_add4_ne_self : ∀ x : Fin NUM_PHILOSOPHERS, x + 4 + 4 ≠ x := by decide

lemma fin5_add4_add4_ne_add4 : ∀ x : Fin NUM_PHILOSOPHERS, x + 4 + 4 ≠ x + 4 := by
  decide

lemma fin5_add4_ne_add1 : ∀ x : Fin NUM_PHILOSOPHERS, x + 4 ≠ x + 1 := by decide

lemma fin5_add3_ne_add1_add4 : ∀ x : Fin NUM_PHILOSOPHERS, x + 3 ≠ x + 1 + 4 := by
  decide

lemma fin5_add3_ne_add1 : ∀ x : Fin NUM_PHILOSOPHERS, x + 3 ≠ x + 1 := by decide

lemma fin5_add4_ne_add1_add4 : ∀ x : Fin NUM_PHILOSOPHERS, x + 4 ≠ x + 1 + 4 := by
  decide

lemma pushLog_getLast (l : List LogEntry) (e : LogEntry) :
    (pushLog l e).getLast? = some e := by
  unfold pushLog
  rw [List.getLast?_reverse]
  have h : (e :: l.reverse).take 20 = e :: l.reverse.take 19 := rfl
  rw [h, List.head?_cons]

lemma waitLoop_unfold (i : Fin NUM_PHILOSOPHERS) (sched : List (Nat × Act))
    (s : Monitor) (elapsed : Nat) :
    waitLoop i sched s elapsed =
      if s.state i = EATING ∨ s.running = false then
        (s, s.running && decide (s.state i = EATING))
      else if TIMEOUT ≤ elapsed then
        (timeout_update s i, false)
      else
        match sched with
        | [] => (timeout_update s i, false)
        | (t, a) :: rest =>
          if TIMEOUT ≤ t then (timeout_update s i, false)
          else waitLoop i rest (applyAct a s) (max (elapsed + 1) t) := by
  rw [waitLoop.eq_def]

lemma waitLoop_exit (i : Fin NUM_PHILOSOPHERS) (sched : List (Nat × Act))
    (s : Monitor) (elapsed : Nat)
    (hc : s.state i = EATING ∨ s.running = false) :
    waitLoop i sched s elapsed = (s, s.running && decide (s.state i = EATING)) := by
  rw [waitLoop_unfold, if_pos hc]

lemma waitLoop_deadline (i : Fin NUM_PHILOSOPHERS) (sched : List (Nat × Act))
    (s : Monitor) (elapsed : Nat)
    (hc : ¬ (s.state i = EATING ∨ s.running = false)) (he : TIMEOUT ≤ elapsed) :
    waitLoop i sched s elapsed = (timeout_update s i, false) := by
  rw [waitLoop_unfold, if_neg hc, if_pos he]

lemma waitLoop_nil (i : Fin NUM_PHILOSOPHERS) (s : Monitor) (elapsed : Nat)
    (hc : ¬ (s.state i = EATING ∨ s.running = false)) (he : ¬ TIMEOUT ≤ elapsed) :
    waitLoop i [] s elapsed = (timeout_update s i, false) := by
  rw [waitLoop_unfold, if_neg hc, if_neg he]

lemma waitLoop_cons (i : Fin NUM_PHILOSOPHERS) (t : Nat) (a : Act)
    (rest : List (Nat × Act)) (s : Monitor) (elapsed : Nat)
    (hc : ¬ (s.state i = EATING ∨ s.running = false)) (he : ¬ TIMEOUT ≤ elapsed) :
    waitLoop i ((t, a) :: rest) s elapsed =
      if TIMEOUT ≤ t then (timeout_update s i, false)
      else waitLoop i rest (applyAct a s) (max (elapsed + 1) t) := by
  rw [waitLoop_unfold, if_neg hc, if_neg he]

/-! ## Shared concrete states used by witnesses and counterexamples -/

/-- The state in which philosopher 0 has requested and been granted both
forks: reachable from the initial state by one request. -/
def oneEating : Monitor := applyAct (Act.reqEntry 0) initMonitor

/-- The state after a second `pickup_forks(0)` entry is executed while
philosopher 0 is already eating. -/
def doubleReq : Monitor := applyAct (Act.reqEntry 0) oneEating

/-- The state in which philosopher 0 is eating and philosopher 1 has
requested and is hungry, blocked on fork 0. -/
def eatingAndHungry : Monitor := applyAct (Act.reqEntry 1) oneEating

/-! ## Claims -/

/-- C1: in every state reachable from the initial state (all actors
Thinking, all forks free, running) by any sequence of the monitor
operations — request entries, request timeouts, releases invoked only
while the releasing actor is Eating, shutdown and restart — no two
adjacent actors `i` and `i + 1` are simultaneously in the `EATING`
state. -/
theorem C1_no_adjacent_eating (s : Monitor) (h : Reachable s)
    (i : Fin NUM_PHILOSOPHERS) :
    ¬ (s.state i = EATING ∧ s.state (i + 1) = EATING) := by
  rintro ⟨h1, h2⟩
  have hL := reachable_Linv h
  have hri : s.forks_in_use i = some i := (hL i h1).2
  have hli : s.forks_in_use (i + 1 + 4) = some (i + 1) := (hL (i + 1) h2).1
  rw [fin5_add1_add4 i, hri] at hli
  exact fin5_add1_ne i (Option.some.inj hli).symm

/-- Witness for C1 at the initial state and actor 0. -/
theorem C1_witness :
    ¬ (initMonitor.state 0 = EATING ∧ initMonitor.state (0 + 1) = EATING) :=
  C1_no_adjacent_eating initMonitor Relation.ReflTransGen.refl 0

/-- Counterexample to C2 as stated: the state reached by issuing
`pickup_forks(0)` twice in a row — the claim's scenario only restricts
releases, not requests — has actor 0 `HUNGRY` while still holding both of
its forks, so "Eating iff holds both resources" fails. -/
theorem C2_counterexample :
    Reachable doubleReq ∧
    ¬ (doubleReq.state 0 = EATING ↔
        (doubleReq.forks_in_use (0 + 4) = some 0 ∧
         doubleReq.forks_in_use 0 = some 0)) := by
  constructor
  · exact Relation.ReflTransGen.tail
      (Relation.ReflTransGen.tail Relation.ReflTransGen.refl
        ⟨Act.reqEntry 0, trivial, rfl⟩)
      ⟨Act.reqEntry 0, trivial, rfl⟩
  · decide

/-- C2 (amended): in every state reachable by monitor operations with
releases invoked only while the releasing actor is Eating AND requests
issued only while the requesting actor is not Eating (as the actor loop
guarantees), each fork is held by at most one actor and an actor is
`EATING` iff it holds both its left fork `i + 4` and its right fork
`i`. -/
theorem C2_ownership_iff (s : Monitor) (h : ReachableD s) :
    (∀ f j k : Fin NUM_PHILOSOPHERS,
      s.forks_in_use f = some j → s.forks_in_use f = some k → j = k) ∧
    (∀ i : Fin NUM_PHILOSOPHERS,
      s.state i = EATING ↔
        (s.forks_in_use (i + 4) = some i ∧ s.forks_in_use i = some i)) := by
  obtain ⟨hO, hL⟩ := reachableD_Inv h
  constructor
  · intro f j k hj hk
    rw [hj] at hk
    exact Option.some.inj hk
  · intro i
    constructor
    · exact hL i
    · rintro ⟨h1, _⟩
      exact (hO (i + 4) i h1).2

/-- Witness for C2 (amended) at the initial state. -/
theorem C2_witness :
    (∀ f j k : Fin NUM_PHILOSOPHERS,
      initMonitor.forks_in_use f = some j →
        initMonitor.forks_in_use f = some k → j = k) ∧
    (∀ i : Fin NUM_PHILOSOPHERS,
      initMonitor.state i = EATING ↔
        (initMonitor.forks_in_use (i + 4) = some i ∧
         initMonitor.forks_in_use i = some i)) :=
  C2_ownership_iff initMonitor Relation.ReflTransGen.refl

/-- C6: a request issued while the running flag is false returns `false`
and leaves the entire monitor state (actor states, fork ownership, log,
counters) completely unchanged. -/
theorem C6_shutdown_fail_fast (s : Monitor) (i : Fin NUM_PHILOSOPHERS)
    (sched : List (Nat × Act)) (h : s.running = false) :
    pickup_forks s i sched = (s, false) := by
  unfold pickup_forks
  rw [if_pos h]

/-- Witness for C6 after a shutdown of the initial state. -/
theorem C6_witness : pickup_forks (stop initMonitor) 0 [] = (stop initMonitor, false) :=
  C6_shutdown_fail_fast (stop initMonitor) 0 [] rfl

/-- C9: the start/restart command sets the running flag, moves every
`DEADLOCK` actor to `THINKING` and leaves every other actor unchanged;
in particular the same holds after a shutdown followed by the restart. -/
theorem C9_restart_clears_deadlock (s : Monitor) :
    (restart_command s).running = true ∧
    (∀ i, (restart_command s).state i =
      (if s.state i = DEADLOCK then THINKING else s.state i)) ∧
    (∀ i, (restart_command (stop s)).state i =
      (if s.state i = DEADLOCK then THINKING else s.state i)) :=
  ⟨rfl, fun _ => rfl, fun _ => rfl⟩

lemma waitLoop_wake_only (i : Fin NUM_PHILOSOPHERS) (s : Monitor)
    (h1 : s.state i ≠ EATING) (h2 : s.running = true) :
    ∀ (sched : List (Nat × Act)) (elapsed : Nat),
      (∀ p ∈ sched, p.2 = Act.wake) →
      waitLoop i sched s elapsed = (timeout_update s i, false) := by
  have hc : ¬ (s.state i = EATING ∨ s.running = false) := by
    rintro (hx | hx)
    · exact h1 hx
    · rw [h2] at hx; exact Bool.noConfusion hx
  intro sched
  induction sched with
  | nil =>
    intro elapsed hw
    by_cases he : TIMEOUT ≤ elapsed
    · exact waitLoop_deadline i [] s elapsed hc he
    · exact waitLoop_nil i s elapsed hc he
  | cons p rest ih =>
    intro elapsed hw
    obtain ⟨t, a⟩ := p
    have ha : a = Act.wake := hw (t, a) (List.mem_cons_self _ _)
    subst ha
    by_cases he : TIMEOUT ≤ elapsed
    · exact waitLoop_deadline i _ s elapsed hc he
    · rw [waitLoop_cons i t Act.wake rest s elapsed hc he]
      by_cases ht : TIMEOUT ≤ t
      · rw [if_pos ht]
      · rw [if_neg ht]
        exact ih (max (elapsed + 1) t)
          (fun q hq => hw q (List.mem_cons_of_mem _ hq))

/-- C4: if the bounded wait deadline (the fixed `TIMEOUT`, measured as
absolute elapsed time since the request started) is reached while actor
`i` is still not Eating and the monitor is still running, the wait loop
sets actor `i` to `DEADLOCK`, appends the timed-out log entry for `i`,
and returns `false`.  Moreover the deadline is not reset by intermediate
wakeups: under any schedule consisting only of spurious wakeups the loop
still ends in the timeout branch. -/
theorem C4_timeout_deadlock (s : Monitor) (i : Fin NUM_PHILOSOPHERS)
    (elapsed : Nat) (sched : List (Nat × Act))
    (h1 : s.state i ≠ EATING) (h2 : s.running = true) :
    (TIMEOUT ≤ elapsed →
      waitLoop i sched s elapsed = (timeout_update s i, false)) ∧
    ((∀ p ∈ sched, p.2 = Act.wake) →
      waitLoop i sched s elapsed = (timeout_update s i, false)) ∧
    (timeout_update s i).state i = DEADLOCK ∧
    (timeout_update s i).log.getLast? = some (LogEntry.timedOut i) := by
  have hc : ¬ (s.state i = EATING ∨ s.running = false) := by
    rintro (hx | hx)
    · exact h1 hx
    · rw [h2] at hx; exact Bool.noConfusion hx
  refine ⟨fun he => waitLoop_deadline i sched s elapsed hc he,
          fun hw => waitLoop_wake_only i s h1 h2 sched elapsed hw, ?_, ?_⟩
  · show Function.update s.state i DEADLOCK i = DEADLOCK
    rw [Function.update_same]
  · exact pushLog_getLast s.log (LogEntry.timedOut i)

/-- Witness for C4 at the initial state, actor 0, with the deadline
already elapsed and no wakeups. -/
theorem C4_witness :
    (TIMEOUT ≤ 5 →
      waitLoop 0 [] initMonitor 5 = (timeout_update initMonitor 0, false)) ∧
    ((∀ p ∈ ([] : List (Nat × Act)), p.2 = Act.wake) →
      waitLoop 0 [] initMonitor 5 = (timeout_update initMonitor 0, false)) ∧
    (timeout_update initMonitor 0).state 0 = DEADLOCK ∧
    (timeout_update initMonitor 0).log.getLast? = some (LogEntry.timedOut 0) :=
  C4_timeout_deadlock initMonitor 0 5 [] (by decide) rfl

/-- C8: a request issued while the monitor is running and both of the
requester's forks are free is granted immediately, without entering the
wait: the call returns `true`, actor `i` is `EATING`, both forks are
marked held by `i`, and the result does not depend on the wakeup
schedule. -/
theorem C8_immediate_grant (s : Monitor) (i : Fin NUM_PHILOSOPHERS)
    (sched : List (Nat × Act)) (hr : s.running = true)
    (hl : s.forks_in_use (i + 4) = none) (hri : s.forks_in_use i = none) :
    (pickup_forks s i sched).2 = true ∧
    ((pickup_forks s i sched).1).state i = EATING ∧
    ((pickup_forks s i sched).1).forks_in_use (i + 4) = some i ∧
    ((pickup_forks s i sched).1).forks_in_use i = some i ∧
    pickup_forks s i sched = pickup_forks s i [] := by
  have hnotf : ¬ (s.running = false) := by rw [hr]; decide
  have hgrant : grant_ok
      (log_event { s with state := Function.update s.state i HUNGRY }
        (LogEntry.hungry i)) i := by
    refine ⟨?_, hl, hri⟩
    show Function.update s.state i HUNGRY i = HUNGRY
    rw [Function.update_same]
  have hentry : pickup_entry s i =
      test (log_event { s with state := Function.update s.state i HUNGRY }
        (LogEntry.hungry i)) i := by
    unfold pickup_entry; rw [if_neg hnotf]
  obtain ⟨he1, he2, he3⟩ := test_grant _ i hgrant
  have hst : (pickup_entry s i).state i = EATING := by rw [hentry]; exact he1
  have hrun : (pickup_entry s i).running = true := by
    rw [hentry, test_running]; exact hr
  have hmain : ∀ sch, pickup_forks s i sch = (pickup_entry s i, true) := by
    intro sch
    unfold pickup_forks
    rw [if_neg hnotf, waitLoop_exit i sch _ 0 (Or.inl hst), hrun, hst]
    rfl
  refine ⟨by rw [hmain sched], by rw [hmain sched]; exact hst,
          by rw [hmain sched]; show (pickup_entry s i).forks_in_use (i + 4) = some i;
             rw [hentry]; exact he2,
          by rw [hmain sched]; show (pickup_entry s i).forks_in_use i = some i;
             rw [hentry]; exact he3,
          (hmain sched).trans (hmain []).symm⟩

/-- Witness for C8 at the initial state and actor 0. -/
theorem C8_witness :
    (pickup_forks initMonitor 0 []).2 = true ∧
    ((pickup_forks initMonitor 0 []).1).state 0 = EATING ∧
    ((pickup_forks initMonitor 0 []).1).forks_in_use (0 + 4) = some 0 ∧
    ((pickup_forks initMonitor 0 []).1).forks_in_use 0 = some 0 ∧
    pickup_forks initMonitor 0 [] = pickup_forks initMonitor 0 [] :=
  C8_immediate_grant initMonitor 0 [] rfl rfl rfl

/-- C10: a single `pickup_forks(i)` call considered in isolation (no
interleaved actions while waiting) never changes the state of any other
actor `j` and never changes the ownership of any fork other than actor
`i`'s left fork `i + 4` and right fork `i`: the only grant performed
inside the call is `test(i)` for the requester itself. -/
theorem C10_request_frame (s : Monitor) (i j f : Fin NUM_PHILOSOPHERS)
    (hj : j ≠ i) (hf1 : f ≠ i + 4) (hf2 : f ≠ i) :
    ((pickup_forks s i []).1).state j = s.state j ∧
    ((pickup_forks s i []).1).forks_in_use f = s.forks_in_use f := by
  by_cases hrun : s.running = false
  · unfold pickup_forks
    rw [if_pos hrun]
    exact ⟨rfl, rfl⟩
  · have hentry : pickup_entry s i =
        test (log_event { s with state := Function.update s.state i HUNGRY }
          (LogEntry.hungry i)) i := by
      unfold pickup_entry; rw [if_neg hrun]
    have hes : (pickup_entry s i).state j = s.state j := by
      rw [hentry, test_state_ne _ i j hj]
      show Function.update s.state i HUNGRY j = s.state j
      rw [Function.update_noteq hj]
    have hef : (pickup_entry s i).forks_in_use f = s.forks_in_use f := by
      rw [hentry, test_forks_ne _ i f hf1 hf2]; rfl
    have hpick : pickup_forks s i [] = waitLoop i [] (pickup_entry s i) 0 := by
      unfold pickup_forks; rw [if_neg hrun]
    by_cases hc : (pickup_entry s i).state i = EATING ∨
        (pickup_entry s i).running = false
    · rw [hpick, waitLoop_exit i [] _ 0 hc]
      exact ⟨hes, hef⟩
    · rw [hpick, waitLoop_nil i _ 0 hc (by decide)]
      constructor
      · show Function.update (pickup_entry s i).state i DEADLOCK j
            = s.state j
        rw [Function.update_noteq hj]; exact hes
      · exact hef

/-- Witness for C10 at the initial state. -/
theorem C10_witness :
    ((pickup_forks initMonitor 0 []).1).state 1 = initMonitor.state 1 ∧
    ((pickup_forks initMonitor 0 []).1).forks_in_use 2
      = initMonitor.forks_in_use 2 :=
  C10_request_frame initMonitor 0 1 2 (by decide) (by decide) (by decide)

/-- Counterexample to C5 as stated: `putdown_forks` contains no
`notify_all` call of its own — notification only happens inside `test`
when a neighbour is actually granted.  Releasing actor 0 while both of
its neighbours are Thinking performs no notification at all (the
notification counter is unchanged), so "releaseResources notifies all
waiters" fails. -/
theorem C5_counterexample :
    oneEating.state 0 = EATING ∧
    (putdown_forks oneEating 0).notify_count = oneEating.notify_count := by
  decide

/-- C5 (amended): `putdown_forks(i)` sets actor `i` to `THINKING`, marks
both of its forks free, appends the stopped-eating log entry for `i`, then
invokes the test procedure for the left neighbour `i + 4` and the right
neighbour `i + 1`; all waiters are notified exactly when one of those two
test invocations grants (the notification is issued inside `test`, not by
the release itself). -/
theorem C5_release_effects (s : Monitor) (i : Fin NUM_PHILOSOPHERS) :
    putdown_forks s i = test (test (release_update s i) (i + 4)) (i + 1) ∧
    (putdown_forks s i).state i = THINKING ∧
    (release_update s i).state i = THINKING ∧
    (release_update s i).forks_in_use (i + 4) = none ∧
    (release_update s i).forks_in_use i = none ∧
    (release_update s i).log.getLast? = some (LogEntry.stoppedEating i) ∧
    (putdown_forks s i).notify_count = s.notify_count +
      ((if grant_ok (release_update s i) (i + 4) then 1 else 0) +
       (if grant_ok (test (release_update s i) (i + 4)) (i + 1) then 1 else 0)) := by
  refine ⟨rfl, ?_, ?_, ?_, ?_, ?_, ?_⟩
  · unfold putdown_forks
    rw [test_state_ne _ (i + 1) i (fin5_ne_add1 i),
        test_state_ne _ (i + 4) i (fin5_ne_add4 i)]
    show Function.update s.state i THINKING i = THINKING
    rw [Function.update_same]
  · show Function.update s.state i THINKING i = THINKING
    rw [Function.update_same]
  · show Function.update (Function.update s.forks_in_use (i + 4) none) i none (i + 4)
        = none
    rw [Function.update_noteq (fin5_add4_ne i), Function.update_same]
  · show Function.update (Function.update s.forks_in_use (i + 4) none) i none i
        = none
    rw [Function.update_same]
  · exact pushLog_getLast s.log (LogEntry.stoppedEating i)
  · unfold putdown_forks
    rw [test_notify, test_notify, Nat.add_assoc]
    rfl

/-- C7: if actor `A` is Eating and an adjacent actor `B` (`A + 1` or
`A + 4`) is Hungry with its other fork (the one not shared with `A`)
free, then after `putdown_forks(A)` completes actor `B` is `EATING` and
holds both of its forks — the grant happens inside the release itself,
without `B` issuing a new request. -/
theorem C7_release_cascade (s : Monitor) (A : Fin NUM_PHILOSOPHERS)
    (hA : s.state A = EATING) :
    ((s.state (A + 1) = HUNGRY ∧ s.forks_in_use (A + 1) = none) →
      ((putdown_forks s A).state (A + 1) = EATING ∧
       (putdown_forks s A).forks_in_use A = some (A + 1) ∧
       (putdown_forks s A).forks_in_use (A + 1) = some (A + 1))) ∧
    ((s.state (A + 4) = HUNGRY ∧ s.forks_in_use (A + 3) = none) →
      ((putdown_forks s A).state (A + 4) = EATING ∧
       (putdown_forks s A).forks_in_use (A + 3) = some (A + 4) ∧
       (putdown_forks s A).forks_in_use (A + 4) = some (A + 4))) := by
  constructor
  · rintro ⟨hB, hBf⟩
    have hm1 : (test (release_update s A) (A + 4)).state (A + 1)
        = (release_update s A).state (A + 1) :=
      test_state_ne _ (A + 4) (A + 1) (fin5_add1_ne_add4 A)
    have hm2 : (test (release_update s A) (A + 4)).forks_in_use A
        = (release_update s A).forks_in_use A :=
      test_forks_ne _ (A + 4) A (fin5_ne_add4_add4 A) (fin5_ne_add4 A)
    have hm3 : (test (release_update s A) (A + 4)).forks_in_use (A + 1)
        = (release_update s A).forks_in_use (A + 1) :=
      test_forks_ne _ (A + 4) (A + 1) (fin5_add1_ne_add4_add4 A)
        (fin5_add1_ne_add4 A)
    have hr1 : (release_update s A).state (A + 1) = HUNGRY := by
      show Function.update s.state A THINKING (A + 1) = HUNGRY
      rw [Function.update_noteq (fin5_add1_ne A)]; exact hB
    have hr2 : (release_update s A).forks_in_use A = none := by
      show Function.update (Function.update s.forks_in_use (A + 4) none) A none A
          = none
      rw [Function.update_same]
    have hr3 : (release_update s A).forks_in_use (A + 1) = none := by
      show Function.update (Function.update s.forks_in_use (A + 4) none) A none
            (A + 1) = none
      rw [Function.update_noteq (fin5_add1_ne A),
          Function.update_noteq (fin5_add1_ne_add4 A)]
      exact hBf
    have hg : grant_ok (test (release_update s A) (A + 4)) (A + 1) := by
      refine ⟨by rw [hm1]; exact hr1, ?_, by rw [hm3]; exact hr3⟩
      show (test (release_update s A) (A + 4)).forks_in_use (A + 1 + 4) = none
      rw [fin5_add1_add4 A, hm2]
      exact hr2
    obtain ⟨hg1, hg2, hg3⟩ := test_grant _ (A + 1) hg
    rw [fin5_add1_add4 A] at hg2
    exact ⟨hg1, hg2, hg3⟩
  · rintro ⟨hB, hBf⟩
    have hr1 : (release_update s A).state (A + 4) = HUNGRY := by
      show Function.update s.state A THINKING (A + 4) = HUNGRY
      rw [Function.update_noteq (fin5_add4_ne A)]; exact hB
    have hr2 : (release_update s A).forks_in_use (A + 4 + 4) = none := by
      show Function.update (Function.update s.forks_in_use (A + 4) none) A none
            (A + 4 + 4) = none
      rw [Function.update_noteq (fin5_add4_add4_ne_self A),
          Function.update_noteq (fin5_add4_add4_ne_add4 A), fin5_add4_add4 A]
      exact hBf
    have hr3 : (release_update s A).forks_in_use (A + 4) = none := by
      show Function.update (Function.update s.forks_in_use (A + 4) none) A none
            (A + 4) = none
      rw [Function.update_noteq (fin5_add4_ne A), Function.update_same]
    obtain ⟨hg1, hg2, hg3⟩ := test_grant _ (A + 4) ⟨hr1, hr2, hr3⟩
    rw [fin5_add4_add4 A] at hg2
    have hk1 : (putdown_forks s A).state (A + 4)
        = (test (release_update s A) (A + 4)).state (A + 4) :=
      test_state_ne _ (A + 1) (A + 4) (fin5_add4_ne_add1 A)
    have hk2 : (putdown_forks s A).forks_in_use (A + 3)
        = (test (release_update s A) (A + 4)).forks_in_use (A + 3) :=
      test_forks_ne _ (A + 1) (A + 3) (fin5_add3_ne_add1_add4 A)
        (fin5_add3_ne_add1 A)
    have hk3 : (putdown_forks s A).forks_in_use (A + 4)
        = (test (release_update s A) (A + 4)).forks_in_use (A + 4) :=
      test_forks_ne _ (A + 1) (A + 4) (fin5_add4_ne_add1_add4 A)
        (fin5_add4_ne_add1 A)
    exact ⟨by rw [hk1]; exact hg1, by rw [hk2]; exact hg2, by rw [hk3]; exact hg3⟩

/-- Witness for C7: philosopher 0 eating, philosopher 1 hungry on free
fork 1; releasing 0 grants 1 inside the release. -/
theorem C7_witness :
    (putdown_forks eatingAndHungry 0).state (0 + 1) = EATING ∧
    (putdown_forks eatingAndHungry 0).forks_in_use 0 = some (0 + 1) ∧
    (putdown_forks eatingAndHungry 0).forks_in_use (0 + 1) = some (0 + 1) :=
  (C7_release_cascade eatingAndHungry 0 (by decide)).1 ⟨by decide, by decide⟩

/-- Counterexample to C3 as stated: a `pickup_forks` call made from the
philosopher loop returns `false` by timing out (the actor ends the
iteration in the `DEADLOCK` state), yet the loop guard is still true
afterwards — the loop does not terminate, and the actor will think and
request again on the next iteration without any restart.  The `break` in
the source only fires on the running flag, never on a `false` return. -/
theorem C3_counterexample :
    (pickup_forks (log_event oneEating (LogEntry.thinking 1)) 1 []).2 = false ∧
    ((philosopher_iter oneEating 1 []).1).state 1 = DEADLOCK ∧
    (philosopher_iter oneEating 1 []).2 = true := by
  decide

/-- C3 (amended): when a `pickup_forks(i)` call made from the actor loop
returns `false`, the iteration performs no release, and the loop
terminates exactly when the running flag is false at the end of the
iteration; after a timeout with the flag still true the loop continues
to another think/request iteration. -/
theorem C3_loop_continue (s : Monitor) (i : Fin NUM_PHILOSOPHERS)
    (sched : List (Nat × Act)) (hr : s.running = true)
    (hfalse : (pickup_forks (log_event s (LogEntry.thinking i)) i sched).2 = false) :
    philosopher_iter s i sched =
      ((pickup_forks (log_event s (LogEntry.thinking i)) i sched).1,
       ((pickup_forks (log_event s (LogEntry.thinking i)) i sched).1).running) := by
  have h1 : ¬ ((log_event s (LogEntry.thinking i)).running = false) := by
    show ¬ (s.running = false)
    rw [hr]; decide
  simp [philosopher_iter, h1, hfalse]

/-- Witness for C3 (amended): with philosopher 0 eating, philosopher 1's
request times out and its loop iteration ends with the loop guard equal
to the (still true) running flag. -/
theorem C3_witness :
    philosopher_iter oneEating 1 [] =
      ((pickup_forks (log_event oneEating (LogEntry.thinking 1)) 1 []).1,
       ((pickup_forks (log_event oneEating (LogEntry.thinking 1)) 1 []).1).running) :=
  C3_loop_continue oneEating 1 [] (by decide) (by decide)
